import Mathlib

/-!
Verification of the `status` command of `techops_cli`.

This file gives a shallow embedding, in Lean 4, of the status-reporter
command found in `src/cli/commands/status.py`, and proves or refutes the
behavioural claims made about it in the specification.

The embedding models:
* the Python string operations the script relies on (`lower`, `strip`,
  substring containment, `startswith`/`endswith`, `splitlines`) as
  executable functions on `List Char` / `String`;
* the regex scan `location\s+([^\s{]+)` used to harvest nginx `location`
  paths, as a direct left-to-right scanner (`scanLoc`);
* Python `dict`s (insertion-ordered, update-in-place) as association
  lists with an update-or-append `dset`;
* the build phase (lines 73-129 of `status.py`), the probing phase
  (lines 131-156), the report classification (lines 158-223), and the
  outer `try/finally` with repository checkout and cleanup.

All definitions are executable, so every concrete scenario below is
settled by evaluation (`decide` / `rfl`).
-/

set_option linter.unusedVariables false
set_option linter.unnecessarySeqFocus false

/-! ## Python string primitives -/

/-- Python's `\s` character class / `str.strip` whitespace, restricted to the
ASCII whitespace characters (the configuration fragments and bodies probed by
the script are ASCII text). -/
def isPySpace (c : Char) : Bool :=
  c = ' ' || c = '\t' || c = '\n' || c = '\r' || c = '\x0b' || c = '\x0c'

/-- Python `str.lower`, character-wise (agrees with CPython on ASCII, which is
all the script ever lowercases: file names, service names, URLs). -/
def lowerS (s : String) : String :=
  ⟨s.data.map Char.toLower⟩

/-- Python `str.strip()` on a character list: drop leading and trailing
whitespace. -/
def stripL (l : List Char) : List Char :=
  ((l.dropWhile isPySpace).reverse.dropWhile isPySpace).reverse

/-- Python `str.strip()`. -/
def stripS (s : String) : String :=
  ⟨stripL s.data⟩

/-- Python `needle in hay` substring containment on character lists. -/
def hasSubL : List Char → List Char → Bool
  | [], n => n.isEmpty
  | h@(_ :: t), n => n.isPrefixOf h || hasSubL t n

/-- Python `needle in hay` on strings. -/
def hasSubS (hay needle : String) : Bool :=
  hasSubL hay.data needle.data

/-- Python `str.startswith`. -/
def startsS (s pre : String) : Bool :=
  pre.data.isPrefixOf s.data

/-- Python `str.endswith`. -/
def endsS (s post : String) : Bool :=
  post.data.isSuffixOf s.data

/-- Python `str.splitlines` on a character list, handling the separators
`\n`, `\r` and `\r\n` (the ones that can occur in the HTTP bodies and config
fragments the script reads). No trailing empty line is produced. -/
def splitLinesL : List Char → List (List Char)
  | [] => []
  | '\r' :: '\n' :: rest => [] :: splitLinesL rest
  | '\r' :: rest => [] :: splitLinesL rest
  | '\n' :: rest => [] :: splitLinesL rest
  | c :: rest =>
    match splitLinesL rest with
    | [] => [[c]]
    | l :: ls => (c :: l) :: ls

/-! ## Module-level configuration constants (`status.py` lines 14-30) -/

/-- `ENVIRONMENTS = ["lab", "qa", "sat", "prod"]` -/
def ENVIRONMENTS : List String := ["lab", "qa", "sat", "prod"]

/-- `DEFAULT_SUFFIXES = ["v1/statuscheck", "v1/resourcecheck", "v1/resourceinspect"]` -/
def DEFAULT_SUFFIXES : List String :=
  ["v1/statuscheck", "v1/resourcecheck", "v1/resourceinspect"]

/-- `BREMPL_SUFFIXES = ["healthcheck"]` -/
def BREMPL_SUFFIXES : List String := ["healthcheck"]

/-- `TIMEOUT = 5` (seconds, passed to every `requests.get`). -/
def TIMEOUT : Nat := 5

/-! ## `find_error_line` (`status.py` lines 46-52) -/

/-- The keywords of the regex `(FAILED|ERROR|CRITICAL)` compiled with
`re.IGNORECASE`. -/
def errKeywords : List String := ["FAILED", "ERROR", "CRITICAL"]

/-- `pattern.search(line)`: does the line contain one of the keywords,
case-insensitively? -/
def lineHasKeyword (line : List Char) : Bool :=
  errKeywords.any (fun k => hasSubL (line.map Char.toLower) (lowerS k).data)

/-- `find_error_line(text)`: return the first line of `text` containing one of
the case-insensitive keywords, stripped; `None` if no line matches. -/
def find_error_line (text : String) : Option String :=
  ((splitLinesL text.data).find? lineHasKeyword).map (fun l => (⟨stripL l⟩ : String))

/-! ## Python dictionaries

Python 3.7+ `dict`s preserve insertion order and update values in place;
we model them as association lists with an update-or-append `dset`. -/

/-- `d[k]` lookup (as an `Option`). -/
def dget {α : Type} (d : List (String × α)) (k : String) : Option α :=
  match d with
  | [] => none
  | (k', v) :: t => if k' = k then some v else dget t k

/-- `d[k] = v`: update in place if the key is present, else append. -/
def dset {α : Type} (d : List (String × α)) (k : String) (v : α) : List (String × α) :=
  match d with
  | [] => [(k, v)]
  | (k', v') :: t => if k' = k then (k, v) :: t else (k', v') :: dset t k v

/-! ## Nginx `location` scan (`status.py` lines 27-28, 110-111)

`LOCATION_REGEX = re.compile(r'location\s+([^\s{]+)')` and
`LOCATION_REGEX.findall(content)`: scanning left to right, at each position a
match requires the literal `location`, then at least one whitespace character,
then a maximal non-empty run of characters that are neither whitespace nor an
opening brace (the captured group). On a successful match scanning resumes
after the captured group; otherwise it advances one character. -/

/-- The literal `location` of the regex. -/
def locKeyword : List Char := "location".data

/-- Attempt a match of `location\s+([^\s{]+)` at the head of `l`; on success
return the captured group and the remainder of the input after it. -/
def tryLoc (l : List Char) : Option (List Char × List Char) :=
  if locKeyword.isPrefixOf l then
    let r1 := l.drop 8
    let ws := r1.takeWhile isPySpace
    let r2 := r1.dropWhile isPySpace
    let tok := r2.takeWhile (fun c => !(isPySpace c) && c ≠ '\x7b')
    if ws.isEmpty || tok.isEmpty then none
    else some (tok, r2.drop tok.length)
  else none

/-- The scanning loop of `findall`, with explicit fuel so that it is
structurally recursive (and hence kernel-computable).  Every iteration either
consumes a whole match (at least one character) or advances one character, so
a fuel equal to the input length never runs out. -/
def scanLocF (fuel : Nat) (l : List Char) : List (List Char) :=
  match fuel, l with
  | 0, _ => []
  | _, [] => []
  | fuel + 1, c :: t =>
    match tryLoc (c :: t) with
    | some (tok, rest) => tok :: scanLocF fuel rest
    | none => scanLocF fuel t

/-- `LOCATION_REGEX.findall(content)` as a left-to-right scanner. -/
def scanLoc (l : List Char) : List (List Char) :=
  scanLocF l.length l

/-! ## Per-service configuration discovery (`status.py` lines 76-115) -/

/-- One entry of the configuration directory: a file name plus the file's
content. -/
structure ConfigFile where
  name : String
  content : String
  deriving DecidableEq

/-- Lines 86-87: `[f for f in os.listdir(config_folder)
if f.lower().startswith(svc.lower()) and f.endswith(".conf")]`. -/
def matchingFiles (fs : List ConfigFile) (svc : String) : List ConfigFile :=
  fs.filter (fun f => startsS (lowerS f.name) (lowerS svc) && endsS f.name ".conf")

/-- Lines 99-105: visibility from the file name — `"extern" in filename.lower()`
gives external (`some true`), else `"intern" in filename.lower()` gives internal
(`some false`), else the file is skipped (`none`). -/
def fragVisibility (filename : String) : Option Bool :=
  if hasSubS (lowerS filename) "extern" then some true
  else if hasSubS (lowerS filename) "intern" then some false
  else none

/-- Lines 110-111: `matches = LOCATION_REGEX.findall(content)` and
`api_locations = [loc.strip() for loc in matches if loc.strip().startswith("/")]`. -/
def apiLocations (content : String) : List String :=
  ((scanLoc content.data).map (fun t => (⟨stripL t⟩ : String))).filter
    (fun s => startsS s "/")

/-- Lines 78-82: `service_suffix_map[svc]` — `BREMPL_SUFFIXES` when
`svc.lower().startswith("bremployeeportal")`, else `DEFAULT_SUFFIXES`. -/
def selectSuffixes (svc : String) : List String :=
  if startsS (lowerS svc) "bremployeeportal" then BREMPL_SUFFIXES else DEFAULT_SUFFIXES

/-! ## URL construction (`status.py` lines 124-128) -/

/-- Lines 124-127: the host part of a URL.  For `prod` the constant is selected
by the fragment's visibility; for every other environment it is
`f"https://{env}01.onvio.com.br"`, with no dependence on visibility. -/
def hostFor (env : String) (isExternal : Bool) : String :=
  if env = "prod" then
    if isExternal then "https://onvio.com.br" else "https://int.onvio.com.br"
  else "https://" ++ env ++ "01.onvio.com.br"

/-- Line 128: `url = f"{prefix}{base_location}{suffix}"`. -/
def urlFor (env : String) (isExternal : Bool) (loc sfx : String) : String :=
  hostFor env isExternal ++ loc ++ sfx

/-! ## Result-dictionary values (`status.py` lines 129, 145, 149-154)

The per-URL record `{"status": ..., "error_line": ...}`: the status is `None`,
an HTTP status code (an int), or the string `f"CONNECTION ERROR ({e})"`. -/

/-- A value of the `"status"` field: an int status code or the connection-error
string. -/
inductive StatusVal : Type where
  | int (n : Nat)
  | str (s : String)
  deriving DecidableEq

/-- The per-URL record `{"status": None, "error_line": None}` with its two
mutable fields. -/
structure Info : Type where
  status : Option StatusVal
  errorLine : Option String
  deriving DecidableEq

/-- The fresh record of lines 129 and 145. -/
def blankInfo : Info := ⟨none, none⟩

/-- `results[svc][env]` : URL → record. -/
abbrev EnvDict := List (String × Info)

/-- `results[svc]` : environment → URL dict. -/
abbrev SvcDict := List (String × EnvDict)

/-- `results` : service → environment dict. -/
abbrev Results := List (String × SvcDict)

/-- Three-level lookup `results[svc][env][url]`. -/
def dget3 (r : Results) (svc env url : String) : Option Info :=
  match dget r svc with
  | none => none
  | some svcd =>
    match dget svcd env with
    | none => none
    | some envd => dget envd url

/-! ## Build phase (`status.py` lines 73-129) -/

/-- Line 104's warning. -/
def noVisMsg (filename : String) : String :=
  "⚠️ File " ++ filename ++ " doesn't specify internal/external, skipping."

/-- Line 114's warning. -/
def noLocMsg (filename : String) : String :=
  "⚠️ No /api location found in " ++ filename

/-- Line 90's warning. -/
def noCfgMsg (svc : String) : String :=
  "⚠️ No config file found for service " ++ svc

/-- Lines 122-128 for one environment: the sequence of URLs produced by the two
inner `for` loops (`base_location` outer, `suffix` inner). -/
def envUrls (env : String) (isExternal : Bool) (locs sfxs : List String) : List String :=
  locs.flatMap (fun loc => sfxs.map (fun s => urlFor env isExternal loc s))

/-- Lines 118-128 over all four environments: the full sequence of URLs the
nested loops of one fragment construct, in iteration order (environment-major). -/
def allUrls (isExternal : Bool) (locs sfxs : List String) : List String :=
  ENVIRONMENTS.flatMap (fun env => envUrls env isExternal locs sfxs)

/-- Lines 122-129 for one environment: insert each URL of `envUrls` into the
per-environment dict with a fresh blank record. -/
def insertUrls (d : EnvDict) (env : String) (isExternal : Bool)
    (locs sfxs : List String) : EnvDict :=
  (envUrls env isExternal locs sfxs).foldl (fun d u => dset d u blankInfo) d

/-- Lines 119-120: `if env not in results[svc]: results[svc][env] = {}`. -/
def envInsert (svcd : SvcDict) (env : String) : SvcDict :=
  if (dget svcd env).isSome then svcd else dset svcd env []

/-- Lines 118-129: for each environment, ensure its dict exists, then insert
every (location × suffix) URL of this fragment. -/
def processEnvs (svcd : SvcDict) (isExternal : Bool) (locs sfxs : List String) :
    SvcDict :=
  ENVIRONMENTS.foldl (fun acc env =>
    let acc' := envInsert acc env
    dset acc' env (insertUrls ((dget acc' env).getD []) env isExternal locs sfxs)) svcd

/-- Lines 98-129, result side: how one matching file updates `results[svc]`.
A file whose name decides no visibility, or whose content yields no
`/`-starting location, is skipped (`continue`) and leaves the dict unchanged. -/
def fileResults (sfxs : List String) (d : SvcDict) (f : ConfigFile) : SvcDict :=
  match fragVisibility f.name with
  | none => d
  | some isExternal =>
    let locs := apiLocations f.content
    if locs = [] then d else processEnvs d isExternal locs sfxs

/-- Lines 98-115, warning side: the warning printed while processing one
matching file, if any. -/
def fileWarnings (f : ConfigFile) : List String :=
  match fragVisibility f.name with
  | none => [noVisMsg f.name]
  | some _ => if apiLocations f.content = [] then [noLocMsg f.name] else []

/-- One iteration of the `for filename in matching_files` loop (lines 95-129),
carrying the accumulated `results[svc]` dict and the warnings printed so far. -/
def processFile (sfxs : List String) (st : SvcDict × List String) (f : ConfigFile) :
    SvcDict × List String :=
  (fileResults sfxs st.1 f, st.2 ++ fileWarnings f)

/-- The build-phase state: the `results` dict and the warnings printed. -/
structure BuildSt : Type where
  results : Results
  warnings : List String
  deriving DecidableEq

/-- One iteration of the `for svc in services` loop (lines 85-129): find the
matching files; if none, warn and `continue`; otherwise set `results[svc] = {}`
and fold the file loop over `results[svc]`. -/
def processSvc (fs : List ConfigFile) (st : BuildSt) (svc : String) : BuildSt :=
  let files := matchingFiles fs svc
  if files = [] then ⟨st.results, st.warnings ++ [noCfgMsg svc]⟩
  else
    let r0 := dset st.results svc []
    let fin := files.foldl (processFile (selectSuffixes svc)) ([], st.warnings)
    ⟨dset r0 svc fin.1, fin.2⟩

/-- Lines 73-129: the whole build phase, starting from `results = {}`. -/
def buildResults (fs : List ConfigFile) (services : List String) : BuildSt :=
  services.foldl (processSvc fs) ⟨[], []⟩

/-- The final value of `results[svc]` for a service with at least one matching
file: the file loop folded from the empty dict. -/
def svcVal (fs : List ConfigFile) (svc : String) : SvcDict :=
  (matchingFiles fs svc).foldl (fileResults (selectSuffixes svc)) []

/-- Total number of URL entries in the build-phase `results`. -/
def totalUrlCount (st : BuildSt) : Nat :=
  (st.results.map (fun p => (p.2.map (fun q => q.2.length)).sum)).sum

/-- Number of URL entries stored under `results[svc][env]`. -/
def urlCount (st : BuildSt) (svc env : String) : Nat :=
  ((dget ((dget st.results svc).getD []) env).getD []).length

/-! ## Probing phase (`status.py` lines 131-156) -/

/-- The outcome of one `requests.get(url, timeout=TIMEOUT)`: a response with a
status code and a body, or a raised `requests.exceptions.RequestException`
(timeout, DNS failure, refused connection, ...) carrying its message. -/
inductive HttpResult : Type where
  | success (code : Nat) (body : String)
  | failure (msg : String)
  deriving DecidableEq

/-- Lines 145-154: the record stored for one URL.  On success the status code
is stored, and for a 200 the body is scanned with `find_error_line`; on a
`RequestException` the string `f"CONNECTION ERROR ({e})"` is stored and no
body is scanned. -/
def recordInfo : HttpResult → Info
  | .success code body =>
    ⟨some (.int code), if code = 200 then find_error_line body else none⟩
  | .failure msg =>
    ⟨some (.str ("CONNECTION ERROR (" ++ msg ++ ")")), none⟩

/-- Line 140: `env = next((e for e in ENVIRONMENTS if e in url.lower()), "prod")`
— the first environment name occurring as a substring of the lower-cased URL,
defaulting to `"prod"`. -/
def detectEnv (url : String) : String :=
  (ENVIRONMENTS.find? (fun e => hasSubS (lowerS url) e)).getD "prod"

/-- Lines 139-156, one URL: re-derive the environment from the URL, ensure
`results[svc][env]` exists, compute the (unused) `matched_suffix`, perform the
request and store the record under `results[svc][env][url]`. -/
def urlStep (sfxs : List String) (svc : String) (respFn : String → HttpResult)
    (results : Results) (url : String) : Results :=
  let env := detectEnv url
  let svcd := (dget results svc).getD []
  let svcd' := if (dget svcd env).isSome then svcd else dset svcd env []
  let _matched := sfxs.find? (fun s => endsS url s)
  let info := recordInfo (respFn url)
  let envd := (dget svcd' env).getD []
  dset results svc (dset svcd' env (dset envd url info))

/-- One iteration of `for svc, urls in output.items()` (lines 136-156):
`results[svc] = {}`, then the URL loop. -/
def groupStep (sfxMap : String → List String) (respFn : String → HttpResult)
    (results : Results) (p : String × List String) : Results :=
  p.2.foldl (urlStep (sfxMap p.1) p.1 respFn) (dset results p.1 [])

/-- Lines 134-156: `results = {}` followed by the loop over `output.items()`,
applied to a given value `out` of the (unbound) name `output`. -/
def probePhase (out : List (String × List String)) (sfxMap : String → List String)
    (respFn : String → HttpResult) : Results :=
  out.foldl (groupStep sfxMap respFn) []

/-! ## Per-URL classification (`status.py` lines 173-189)

The detailed report prints, for each stored record, exactly one of five
shapes.  We name them (`UrlClass`): -/

/-- The five output shapes of lines 176-189, in source order: `✅ OK`,
`❌ HTTP ... (Server Error)`, `❌ HTTP 404 NOT FOUND`,
`⚠️ FAILED in response` with the matching line, and the final
`❌ ...` catch-all (whose payload is the stored status value —
for a transport failure, the `CONNECTION ERROR (...)` string). -/
inductive UrlClass : Type where
  | ok
  | serverError (n : Nat)
  | notFound
  | contentFailure (line : String)
  | other (s : Option StatusVal)
  deriving DecidableEq

/-- Python truthiness of the `error_line` field (`None` and `""` are falsy). -/
def pyTruthy : Option String → Bool
  | none => false
  | some s => !s.isEmpty

/-- `isinstance(status, int) and 500 <= status <= 599`. -/
def is5xx : Option StatusVal → Bool
  | some (.int n) => 500 ≤ n && n ≤ 599
  | _ => false

/-- Lines 176-189, with the source's branch order:
`if status == 200 and not err_line / elif isinstance(status, int) and
500 <= status <= 599 / elif status == 404 / elif err_line / else`. -/
def classifyInfo (i : Info) : UrlClass :=
  if i.status = some (.int 200) && !(pyTruthy i.errorLine) then .ok
  else if is5xx i.status then
    .serverError (match i.status with | some (.int n) => n | _ => 0)
  else if i.status = some (.int 404) then .notFound
  else if pyTruthy i.errorLine then .contentFailure (i.errorLine.getD "")
  else .other i.status

/-! ## The specification's classification (spec §4, Operation Probe)

A second definition, written from the specification's words, to compare with
the code path `classifyInfo ∘ recordInfo`. -/

/-- The specification's outcome kinds: `connection_error`, `server_error`,
`not_found`, `content_failure` (with the first matching line as detail), `ok`,
and a generic failure carrying the numeric code. -/
inductive SpecClass : Type where
  | connection_error
  | server_error
  | not_found
  | content_failure (detail : String)
  | ok
  | generic (code : Nat)
  deriving DecidableEq

/-- Modelled from the spec: "Classification rule, in priority order:
1. transport/connection failure → connection_error; 2. status in [500,599] →
server_error; 3. status 404 → not_found; 4. status 200 and body contains a
line matching a keyword → content_failure, detail = first matching line;
5. status 200 and no matching line → ok; 6. any other status → generic
failure carrying the numeric code." -/
def specClassify : HttpResult → SpecClass
  | .failure _ => .connection_error
  | .success code body =>
    if 500 ≤ code ∧ code ≤ 599 then .server_error
    else if code = 404 then .not_found
    else if code = 200 then
      match find_error_line body with
      | some l => .content_failure l
      | none => .ok
    else .generic code

/-- The canonical reading of a code-level `UrlClass` as a spec-level outcome:
the catch-all branch holds `connection_error` when the stored status is the
connection-error string, and the generic numeric failure when it is an int;
a record with no status at all answers to nothing (`none`). -/
def toSpec : UrlClass → Option SpecClass
  | .ok => some .ok
  | .serverError _ => some .server_error
  | .notFound => some .not_found
  | .contentFailure l => some (.content_failure l)
  | .other (some (.str _)) => some .connection_error
  | .other (some (.int n)) => some (.generic n)
  | .other none => none

/-! ## The `status` command (`status.py` lines 35-44, 54-58, 63-230)

The probing phase (line 136) iterates `output.items()`.  Python resolves the
name `output` in the function's local scope, then the module's global scope,
then the builtins.  The lists below transcribe the names actually bound in
each of those scopes in `status.py`. -/

/-- Every name assigned somewhere in the body of `status` (Python makes each
of them function-local throughout the body), plus the parameter.  Transcribed
from the assignment statements, `for` targets, `with ... as` and
`except ... as` clauses of lines 63-223. -/
def statusLocalNames : List String :=
  ["services", "config_folder", "results", "services_with_5xx",
   "service_suffix_map", "svc", "matching_files", "filename", "file_path",
   "is_external", "f", "content", "matches", "api_locations", "env",
   "base_location", "suffix", "prefix", "url", "urls", "suffixes",
   "matched_suffix", "info", "response", "e", "err_line", "service_ok_count",
   "total_services", "env_data", "urls_info", "status", "service_has_error",
   "total_ok", "total_5xx", "total_404", "total_failed_content"]

/-- Every name bound at module level in `status.py`: the imports of lines 2-9
and the module-level definitions of lines 14-230. -/
def statusModuleNames : List String :=
  ["os", "re", "subprocess", "sys", "shutil", "Path", "requests", "click",
   "REPO_URL", "BRANCH", "LOCAL_REPO_PATH", "CONFIG_SUBPATH", "ENVIRONMENTS",
   "DEFAULT_SUFFIXES", "BREMPL_SUFFIXES", "LOCATION_REGEX", "TIMEOUT",
   "git_clone_or_update", "find_error_line", "cleanup_repo", "status",
   "__name__", "__file__", "__doc__", "__builtins__"]

/-- The builtins the module's code refers to.  (`output` is not a CPython
builtin either; this list stands in for the full `builtins` namespace, no
member of which is named `output`.) -/
def statusBuiltinNames : List String :=
  ["print", "open", "len", "isinstance", "next", "set", "range", "str",
   "int", "list", "dict", "Exception"]

/-- Whether the name `output`, read at line 136, resolves in any of the three
scopes.  When it does not, CPython raises `NameError` at that line. -/
def outputIsBound : Bool :=
  statusLocalNames.contains "output" || statusModuleNames.contains "output" ||
    statusBuiltinNames.contains "output"

/-- A raised Python exception that escapes a phase of the command. -/
inductive PyErr : Type where
  | nameError (name : String)
  | processError
  deriving DecidableEq

/-- The filesystem state the command touches: the local repository checkout at
`/tmp/techops_status_repo` (`None` when absent), holding the configuration
directory's files when present. -/
structure World : Type where
  checkout : Option (List ConfigFile)
  deriving DecidableEq

/-- `git_clone_or_update()` (lines 35-44): clone the branch if the checkout is
missing, else fetch/checkout/pull — either way the checkout afterwards holds
the remote branch's current content. -/
def git_clone_or_update (remote : List ConfigFile) (w : World) : World :=
  { checkout := some remote }

/-- `cleanup_repo()` (lines 54-58): remove the checkout if it exists. -/
def cleanup_repo (w : World) : World :=
  { checkout := none }

/-- Lines 63-230: the whole `status` command.  `gitOk` says whether the
`subprocess.run(..., check=True)` calls of the checkout succeed; `remote` is
the content of the configuration directory on the remote branch; `respFn`
stubs `requests.get`.  Returns the command's outcome — the printed report
lines on success, the escaping exception otherwise — and the final world
state after the `finally: cleanup_repo()`.

Inside the `try`: the checkout is synced, the build phase runs (lines
73-129), line 134 rebinds `results = {}` discarding the build, and line 136
reads the name `output`; since `outputIsBound` decides to `false`, the
command raises `NameError` there, before any request is issued — hence
`respFn` is never consulted. -/
def runStatus (gitOk : Bool) (remote : List ConfigFile) (services : List String)
    (respFn : String → HttpResult) (w : World) :
    Except PyErr (List String) × World :=
  if gitOk then
    let w1 := git_clone_or_update remote w
    let _built := buildResults (w1.checkout.getD []) services
    let probed : Except PyErr (List String) :=
      if outputIsBound then Except.ok []
      else Except.error (.nameError "output")
    (probed, cleanup_repo w1)
  else
    (Except.error .processError, cleanup_repo w)

/-! ## Concrete scenarios used by witnesses and counterexamples -/

/-- A configuration directory with one external fragment for service `orders`
declaring two locations (the spec's §8 end-to-end example). -/
def cfgOrders : List ConfigFile :=
  [⟨"orders-extern.conf", "location /orders/api \x7b\nlocation /orders/admin \x7b"⟩]

/-- Two fragments of the same service declaring the same location. -/
def cfgDup : List ConfigFile :=
  [⟨"x-extern.conf", "location /api/ \x7b"⟩, ⟨"x-extern2.conf", "location /api/ \x7b"⟩]

/-- One external fragment whose location path contains the name of the `lab`
environment. -/
def cfgLab : List ConfigFile :=
  [⟨"x-extern.conf", "location /lab/ \x7b"⟩]

/-- The prod URL built from `cfgLab`'s location and the first default suffix. -/
def labUrl : String := "https://onvio.com.br/lab/v1/statuscheck"

/-- A stubbed HTTP layer: every URL answers 200 with a clean body. -/
def respOk : String → HttpResult := fun _ => .success 200 "all good"

/-- A stubbed HTTP layer where one URL suffers a transport failure. -/
def respMix : String → HttpResult := fun u =>
  if u = "https://a" then .failure "timeout" else .success 200 "clean body"

/-! ## Helper lemmas: the dictionary model -/

theorem dget_dset_self {α : Type} (d : List (String × α)) (k : String) (v : α) :
    dget (dset d k v) k = some v := by
  induction d with
  | nil => simp [dget, dset]
  | cons p t ih =>
    obtain ⟨k', v'⟩ := p
    by_cases h : k' = k <;> simp [dget, dset, h, ih]

theorem dget_dset_ne {α : Type} (d : List (String × α)) {k k' : String} (v : α)
    (h : k ≠ k') : dget (dset d k v) k' = dget d k' := by
  induction d with
  | nil => simp [dget, dset, h]
  | cons p t ih =>
    obtain ⟨k₀, v₀⟩ := p
    by_cases h₀ : k₀ = k
    · subst h₀
      simp [dget, dset, h]
    · by_cases h₁ : k₀ = k' <;> simp [dget, dset, h₀, h₁, Ne.symm h, ih]

theorem isSome_dget_dset {α : Type} (d : List (String × α)) (k k' : String) (v : α)
    (h : (dget d k').isSome) : (dget (dset d k v) k').isSome := by
  by_cases hk : k = k'
  · subst hk
    simp [dget_dset_self]
  · rwa [dget_dset_ne d v hk]

theorem length_dset {α : Type} (d : List (String × α)) (k : String) (v : α) :
    (dset d k v).length = if (dget d k).isSome then d.length else d.length + 1 := by
  induction d with
  | nil => simp [dget, dset]
  | cons p t ih =>
    obtain ⟨k', v'⟩ := p
    by_cases h : k' = k <;> simp [dget, dset, h, ih] <;> split <;> simp

/-! ## Helper lemmas: the probing phase -/

/-- One URL iteration stores the record of its own response under
`(svc, detectEnv url, url)`. -/
theorem urlStep_records (sfxs : List String) (svc : String)
    (respFn : String → HttpResult) (R : Results) (url : String) :
    dget3 (urlStep sfxs svc respFn R url) svc (detectEnv url) url =
      some (recordInfo (respFn url)) := by
  unfold urlStep dget3
  simp [dget_dset_self]

/-- One URL iteration does not touch other services' entries. -/
theorem urlStep_other (sfxs : List String) (svc : String)
    (respFn : String → HttpResult) (R : Results) (url : String) {k : String}
    (h : svc ≠ k) :
    dget (urlStep sfxs svc respFn R url) k = dget R k := by
  unfold urlStep
  rw [dget_dset_ne _ _ h]

/-- One URL iteration preserves every record already stored for this service
under its re-derived environment key (overwriting it with the same value when
the URL coincides). -/
theorem urlStep_preserves (sfxs : List String) (svc : String)
    (respFn : String → HttpResult) (R : Results) (url u : String)
    (h : dget3 R svc (detectEnv u) u = some (recordInfo (respFn u))) :
    dget3 (urlStep sfxs svc respFn R url) svc (detectEnv u) u =
      some (recordInfo (respFn u)) := by
  unfold dget3 at h ⊢
  unfold urlStep
  cases hR : dget R svc with
  | none => simp [hR] at h
  | some svcd₀ =>
    simp only [hR] at h
    cases hE : dget svcd₀ (detectEnv u) with
    | none => simp [hE] at h
    | some envd₀ =>
      simp only [hE] at h
      simp only [hR, Option.getD_some, dget_dset_self]
      by_cases he : detectEnv url = detectEnv u
      · rw [← he] at hE
        have hsome : (dget svcd₀ (detectEnv url)).isSome = true := by simp [hE]
        rw [if_pos hsome, ← he, dget_dset_self]
        simp only [hE, Option.getD_some]
        by_cases hu : url = u
        · subst hu
          rw [dget_dset_self]
        · rw [dget_dset_ne _ _ hu]
          exact h
      · rw [dget_dset_ne _ _ he]
        by_cases hs : (dget svcd₀ (detectEnv url)).isSome = true
        · rw [if_pos hs]
          simp only [hE]
          exact h
        · rw [if_neg hs, dget_dset_ne _ _ he]
          simp only [hE]
          exact h

/-- Folding the URL loop records every URL of the list under its re-derived
environment, with the record of its own response. -/
theorem urlFold_records (sfxs : List String) (svc : String)
    (respFn : String → HttpResult) (urls : List String) (R : Results)
    (u : String) (hu : u ∈ urls) :
    dget3 (urls.foldl (urlStep sfxs svc respFn) R) svc (detectEnv u) u =
      some (recordInfo (respFn u)) := by
  induction urls using List.reverseRecOn generalizing R with
  | nil => cases hu
  | append_singleton us u' ih =>
    rw [List.foldl_append]
    simp only [List.foldl_cons, List.foldl_nil]
    rcases List.mem_append.mp hu with hin | hlast
    · exact urlStep_preserves _ _ _ _ _ _ (ih R hin)
    · have : u = u' := by simpa using hlast
      subst this
      exact urlStep_records _ _ _ _ _

/-- The URL loop never touches other services' top-level entries. -/
theorem urlFold_other (sfxs : List String) (svc : String)
    (respFn : String → HttpResult) (urls : List String) (R : Results)
    {k : String} (h : svc ≠ k) :
    dget (urls.foldl (urlStep sfxs svc respFn) R) k = dget R k := by
  induction urls generalizing R with
  | nil => rfl
  | cons u' us ih =>
    simp only [List.foldl_cons]
    rw [ih, urlStep_other _ _ _ _ _ h]

/-- One group iteration never touches other services' top-level entries. -/
theorem groupStep_other (sfxMap : String → List String)
    (respFn : String → HttpResult) (R : Results) (p : String × List String)
    {k : String} (h : p.1 ≠ k) :
    dget (groupStep sfxMap respFn R p) k = dget R k := by
  unfold groupStep
  rw [urlFold_other _ _ _ _ _ h, dget_dset_ne _ _ h]

/-- Folding groups whose keys all differ from `svc` leaves `svc`'s entry
unchanged. -/
theorem groupFold_other (sfxMap : String → List String)
    (respFn : String → HttpResult) (out : List (String × List String))
    (R : Results) {svc : String} (h : ∀ q ∈ out, q.1 ≠ svc) :
    dget (out.foldl (groupStep sfxMap respFn) R) svc = dget R svc := by
  induction out generalizing R with
  | nil => rfl
  | cons p t ih =>
    simp only [List.foldl_cons]
    rw [ih _ (fun q hq => h q (List.mem_cons_of_mem _ hq)),
      groupStep_other _ _ _ _ (h p (List.mem_cons_self _ _))]

/-- The probing loop, started from any `results` value and fed a dict
(`output.items()` yields pairwise-distinct keys), records every URL of every
group under `(its service, its re-derived environment, itself)`, with the
record of its own response. -/
theorem probeFold_records (sfxMap : String → List String)
    (respFn : String → HttpResult) (out : List (String × List String))
    (R : Results) (svc : String) (urls : List String) (u : String)
    (hkeys : out.Pairwise (fun a b => a.1 ≠ b.1)) (hmem : (svc, urls) ∈ out)
    (hu : u ∈ urls) :
    dget3 (out.foldl (groupStep sfxMap respFn) R) svc (detectEnv u) u =
      some (recordInfo (respFn u)) := by
  induction out generalizing R with
  | nil => cases hmem
  | cons p t ih =>
    simp only [List.foldl_cons]
    rcases List.mem_cons.mp hmem with hp | ht
    · subst hp
      have hne : ∀ q ∈ t, q.1 ≠ svc := by
        intro q hq
        have := (List.pairwise_cons.mp hkeys).1 q hq
        exact fun hcon => this (by simpa using hcon.symm)
      unfold dget3
      rw [groupFold_other _ _ _ _ hne]
      have hrec := urlFold_records (sfxMap svc) svc respFn urls
        (dset R svc []) u hu
      unfold dget3 at hrec
      unfold groupStep
      exact hrec
    · exact ih _ (List.pairwise_cons.mp hkeys).2 ht

/-! ## Helper lemmas: the build phase -/

/-- The result side of the file loop is the fold of `fileResults` (warnings do
not feed back into it). -/
theorem processFile_fold_fst (sfxs : List String) (files : List ConfigFile)
    (d : SvcDict) (w : List String) :
    (files.foldl (processFile sfxs) (d, w)).1 = files.foldl (fileResults sfxs) d := by
  induction files generalizing d w with
  | nil => rfl
  | cons f t ih =>
    simp only [List.foldl_cons, processFile]
    exact ih _ _

/-- The warning side of the file loop appends each file's warnings in order. -/
theorem processFile_fold_snd (sfxs : List String) (files : List ConfigFile)
    (d : SvcDict) (w : List String) :
    (files.foldl (processFile sfxs) (d, w)).2 = w ++ files.flatMap fileWarnings := by
  induction files generalizing d w with
  | nil => simp
  | cons f t ih =>
    simp only [List.foldl_cons, processFile, List.flatMap_cons]
    rw [ih]
    simp [List.append_assoc]

/-- The value of `results[svc]` after the service loop: present (with the
file-loop value `svcVal`) exactly when the service was requested and had a
matching file; otherwise whatever the starting state held. -/
theorem buildFold_dget (fs : List ConfigFile) (l : List String) (st : BuildSt)
    (svc : String) :
    dget (l.foldl (processSvc fs) st).results svc =
      if svc ∈ l ∧ matchingFiles fs svc ≠ [] then some (svcVal fs svc)
      else dget st.results svc := by
  induction l generalizing st with
  | nil => simp
  | cons a t ih =>
    simp only [List.foldl_cons]
    rw [ih]
    by_cases hc : svc ∈ t ∧ matchingFiles fs svc ≠ []
    · rw [if_pos hc, if_pos ⟨List.mem_cons_of_mem _ hc.1, hc.2⟩]
    · rw [if_neg hc]
      by_cases ha : a = svc
      · subst ha
        by_cases hm : matchingFiles fs a = []
        · simp only [processSvc]
          rw [if_pos hm, if_neg (fun hcon => hcon.2 hm)]
        · simp only [processSvc]
          rw [if_neg hm]
          simp only []
          rw [dget_dset_self, processFile_fold_fst,
            if_pos ⟨List.mem_cons_self _ _, hm⟩]
          rfl
      · have hcond : ¬(svc ∈ a :: t ∧ matchingFiles fs svc ≠ []) := by
          rintro ⟨hmem, hne⟩
          rcases List.mem_cons.mp hmem with h1 | h2
          · exact ha h1.symm
          · exact hc ⟨h2, hne⟩
        rw [if_neg hcond]
        simp only [processSvc]
        by_cases hm : matchingFiles fs a = []
        · rw [if_pos hm]
        · rw [if_neg hm]
          simp only []
          rw [dget_dset_ne _ _ ha, dget_dset_ne _ _ ha]

/-- One service iteration only appends to the warnings. -/
theorem processSvc_warnings (fs : List ConfigFile) (st : BuildSt) (a : String) :
    ∃ wa, (processSvc fs st a).warnings = st.warnings ++ wa := by
  simp only [processSvc]
  by_cases hm : matchingFiles fs a = []
  · rw [if_pos hm]
    exact ⟨[noCfgMsg a], rfl⟩
  · rw [if_neg hm]
    exact ⟨(matchingFiles fs a).flatMap fileWarnings, processFile_fold_snd _ _ _ _⟩

/-- The service loop only appends to the warnings. -/
theorem buildFold_warnings (fs : List ConfigFile) (l : List String) (st : BuildSt) :
    ∃ w', (l.foldl (processSvc fs) st).warnings = st.warnings ++ w' := by
  induction l generalizing st with
  | nil => exact ⟨[], by simp⟩
  | cons a t ih =>
    obtain ⟨w₁, hw₁⟩ := ih (processSvc fs st a)
    obtain ⟨wa, hwa⟩ := processSvc_warnings fs st a
    refine ⟨wa ++ w₁, ?_⟩
    simp only [List.foldl_cons]
    rw [hw₁, hwa, List.append_assoc]

/-- A requested service with no matching configuration file leaves its warning
in the output. -/
theorem buildFold_noCfg (fs : List ConfigFile) (l : List String) (st : BuildSt)
    (svc : String) (hmem : svc ∈ l) (hm : matchingFiles fs svc = []) :
    noCfgMsg svc ∈ (l.foldl (processSvc fs) st).warnings := by
  induction l generalizing st with
  | nil => cases hmem
  | cons a t ih =>
    simp only [List.foldl_cons]
    rcases List.mem_cons.mp hmem with rfl | ht
    · obtain ⟨w', hw'⟩ := buildFold_warnings fs t (processSvc fs st svc)
      rw [hw']
      have hmsg : noCfgMsg svc ∈ (processSvc fs st svc).warnings := by
        simp only [processSvc]
        rw [if_pos hm]
        simp
      exact List.mem_append.mpr (Or.inl hmsg)
    · exact ih _ ht

/-- One environment iteration of lines 118-129 preserves every present key. -/
theorem envStep_mono (acc : SvcDict) (e k : String) (b : Bool)
    (locs sfxs : List String) (h : (dget acc k).isSome = true) :
    (dget (dset (envInsert acc e) e
      (insertUrls ((dget (envInsert acc e) e).getD []) e b locs sfxs)) k).isSome =
      true := by
  apply isSome_dget_dset
  unfold envInsert
  split
  · exact h
  · exact isSome_dget_dset _ _ _ _ h

/-- One environment iteration makes its own environment key present. -/
theorem envStep_self (acc : SvcDict) (e : String) (v : EnvDict) :
    (dget (dset (envInsert acc e) e v) e).isSome = true := by
  rw [dget_dset_self]
  rfl

/-- After lines 118-129, every one of the four environments is a key of
`results[svc]`. -/
theorem processEnvs_present (svcd : SvcDict) (b : Bool) (locs sfxs : List String)
    (env : String) (henv : env ∈ ENVIRONMENTS) :
    (dget (processEnvs svcd b locs sfxs) env).isSome = true := by
  simp only [ENVIRONMENTS, List.mem_cons, List.not_mem_nil, or_false] at henv
  simp only [processEnvs, ENVIRONMENTS, List.foldl_cons, List.foldl_nil]
  rcases henv with rfl | rfl | rfl | rfl
  · exact envStep_mono _ _ _ _ _ _ (envStep_mono _ _ _ _ _ _
      (envStep_mono _ _ _ _ _ _ (envStep_self _ _ _)))
  · exact envStep_mono _ _ _ _ _ _ (envStep_mono _ _ _ _ _ _ (envStep_self _ _ _))
  · exact envStep_mono _ _ _ _ _ _ (envStep_self _ _ _)
  · exact envStep_self _ _ _

/-- Lines 118-129 preserve every present environment key. -/
theorem processEnvs_mono (svcd : SvcDict) (b : Bool) (locs sfxs : List String)
    (k : String) (h : (dget svcd k).isSome = true) :
    (dget (processEnvs svcd b locs sfxs) k).isSome = true := by
  simp only [processEnvs, ENVIRONMENTS, List.foldl_cons, List.foldl_nil]
  exact envStep_mono _ _ _ _ _ _ (envStep_mono _ _ _ _ _ _
    (envStep_mono _ _ _ _ _ _ (envStep_mono _ _ _ _ _ _ h)))

/-- Processing one more file preserves every present environment key. -/
theorem fileResults_mono (sfxs : List String) (d : SvcDict) (f : ConfigFile)
    (k : String) (h : (dget d k).isSome = true) :
    (dget (fileResults sfxs d f) k).isSome = true := by
  unfold fileResults
  split
  · exact h
  · dsimp only
    split
    · exact h
    · exact processEnvs_mono _ _ _ _ _ h

/-- The file loop preserves every present environment key. -/
theorem fileFold_mono (sfxs : List String) (files : List ConfigFile)
    (d : SvcDict) (k : String) (h : (dget d k).isSome = true) :
    (dget (files.foldl (fileResults sfxs) d) k).isSome = true := by
  induction files generalizing d with
  | nil => exact h
  | cons f t ih =>
    simp only [List.foldl_cons]
    exact ih _ (fileResults_mono _ _ _ _ h)

/-- If some file of the loop is usable — its name decides a visibility and its
content declares a `/`-starting location — then after the file loop all four
environments are keys of `results[svc]`. -/
theorem fileFold_present (sfxs : List String) (files : List ConfigFile)
    (d : SvcDict) (env : String) (henv : env ∈ ENVIRONMENTS)
    (husable : ∃ f ∈ files, fragVisibility f.name ≠ none ∧ apiLocations f.content ≠ []) :
    (dget (files.foldl (fileResults sfxs) d) env).isSome = true := by
  induction files generalizing d with
  | nil => obtain ⟨f, hf, -⟩ := husable; cases hf
  | cons f t ih =>
    simp only [List.foldl_cons]
    obtain ⟨f₀, hf₀, hvis, hloc⟩ := husable
    rcases List.mem_cons.mp hf₀ with rfl | hin
    · apply fileFold_mono
      unfold fileResults
      cases hv : fragVisibility f₀.name with
      | none => exact absurd hv hvis
      | some b =>
        simp only []
        rw [if_neg hloc]
        exact processEnvs_present _ _ _ _ _ henv
    · exact ih _ ⟨f₀, hin, hvis, hloc⟩

/-! ## Helper lemmas: strings and `find_error_line` -/

/-- Soundness of the substring search: a found needle really occurs. -/
theorem hasSubL_infix {h n : List Char} (hh : hasSubL h n = true) :
    ∃ p s, h = p ++ n ++ s := by
  induction h with
  | nil =>
    simp only [hasSubL, List.isEmpty_iff] at hh
    exact ⟨[], [], by simp [hh]⟩
  | cons c t ih =>
    simp only [hasSubL, Bool.or_eq_true] at hh
    rcases hh with hpre | htail
    · rw [List.isPrefixOf_iff_prefix] at hpre
      obtain ⟨s, hs⟩ := hpre
      exact ⟨[], s, by simp [← hs]⟩
    · obtain ⟨p, s, hps⟩ := ih htail
      exact ⟨c :: p, s, by simp [hps]⟩

/-- Every character of a found needle is a character of the haystack. -/
theorem mem_of_hasSubL {h n : List Char} (hh : hasSubL h n = true) {c : Char}
    (hc : c ∈ n) : c ∈ h := by
  obtain ⟨p, s, rfl⟩ := hasSubL_infix hh
  simp [hc]

/-- If stripping empties a line, the line was all whitespace. -/
theorem stripL_all_space {l : List Char} (h : stripL l = []) :
    ∀ c ∈ l, isPySpace c = true := by
  unfold stripL at h
  rw [List.reverse_eq_nil_iff, List.dropWhile_eq_nil_iff] at h
  intro c hc
  rw [← List.takeWhile_append_dropWhile (p := isPySpace) (l := l)] at hc
  rcases List.mem_append.mp hc with h1 | h2
  · exact List.mem_takeWhile_imp h1
  · exact h c (List.mem_reverse.mpr h2)

/-- Lower-casing fixes whitespace characters. -/
theorem toLower_space_fixed {c : Char} (h : isPySpace c = true) :
    Char.toLower c = c := by
  simp only [isPySpace, Bool.or_eq_true, decide_eq_true_eq] at h
  rcases h with ((((rfl | rfl) | rfl) | rfl) | rfl) | rfl <;> decide

/-- A line containing one of the error keywords has a non-whitespace
character. -/
theorem keyword_nonspace {line : List Char} (hk : lineHasKeyword line = true) :
    ∃ c ∈ line, isPySpace c = false := by
  unfold lineHasKeyword at hk
  rw [List.any_eq_true] at hk
  obtain ⟨kw, hkw, hsub⟩ := hk
  have hhead : ∃ ch, ch ∈ (lowerS kw).data ∧ isPySpace ch = false := by
    fin_cases hkw
    · exact ⟨'f', by decide, by decide⟩
    · exact ⟨'e', by decide, by decide⟩
    · exact ⟨'c', by decide, by decide⟩
  obtain ⟨ch, hchmem, hchns⟩ := hhead
  have hmem : ch ∈ line.map Char.toLower := mem_of_hasSubL hsub hchmem
  obtain ⟨c, hcl, hclow⟩ := List.mem_map.mp hmem
  refine ⟨c, hcl, ?_⟩
  by_contra hcon
  rw [Bool.not_eq_false] at hcon
  rw [toLower_space_fixed hcon] at hclow
  rw [hclow] at hcon
  rw [hcon] at hchns
  cases hchns

/-- The detail stored for a content failure is never the empty string: the
matching line contains a keyword character, which stripping cannot remove. -/
theorem find_error_line_ne {text : String} {l : String}
    (h : find_error_line text = some l) : l ≠ "" := by
  unfold find_error_line at h
  cases hf : (splitLinesL text.data).find? lineHasKeyword with
  | none => rw [hf] at h; cases h
  | some line =>
    rw [hf] at h
    simp only [Option.map_some'] at h
    obtain rfl := (Option.some.inj h).symm
    have hkw : lineHasKeyword line = true := List.find?_some hf
    intro hcon
    have hnil : stripL line = [] := congrArg String.data hcon
    obtain ⟨c, hcmem, hcns⟩ := keyword_nonspace hkw
    have hsp := stripL_all_space hnil c hcmem
    rw [hsp] at hcns
    cases hcns

/-- A non-empty string's `isEmpty` is `false`. -/
theorem ne_empty_isEmpty_false {l : String} (h : l ≠ "") : l.isEmpty = false := by
  cases he : l.isEmpty
  · rfl
  · exact absurd ((String.isEmpty_iff l).mp he) h

/-! ## The claims -/

/-- C1 (counterexample): a requested service (`"orders"`) with no matching
configuration file is omitted from the build-phase results entirely — `dget`
finds no entry for it, for any environment — rather than recorded with
empty/zero counts; only the warning is printed. -/
theorem c1_missing_service_omitted :
    dget (buildResults [] ["orders"]).results "orders" = none ∧
    (buildResults [] ["orders"]).warnings = [noCfgMsg "orders"] := by
  exact ⟨rfl, rfl⟩

/-- C1 (amended): a requested service appears in the build-phase results iff
it has at least one matching configuration file (services without one are
skipped with a warning and omitted, not recorded with zero counts); when
present its value is the file-loop dict, and if some matching fragment is
usable (decided visibility and a `/`-starting location) that dict has all
four environments as keys. -/
theorem c1_report_entries (fs : List ConfigFile) (services : List String)
    (svc : String) (hmem : svc ∈ services) :
    (matchingFiles fs svc = [] →
      dget (buildResults fs services).results svc = none ∧
      noCfgMsg svc ∈ (buildResults fs services).warnings) ∧
    (matchingFiles fs svc ≠ [] →
      dget (buildResults fs services).results svc = some (svcVal fs svc)) ∧
    ((∃ f ∈ matchingFiles fs svc, fragVisibility f.name ≠ none ∧
        apiLocations f.content ≠ []) →
      ∀ env ∈ ENVIRONMENTS, (dget (svcVal fs svc) env).isSome = true) := by
  refine ⟨?_, ?_, ?_⟩
  · intro hm
    refine ⟨?_, buildFold_noCfg fs services _ svc hmem hm⟩
    unfold buildResults
    rw [buildFold_dget, if_neg (fun hcon => hcon.2 hm)]
    rfl
  · intro hm
    unfold buildResults
    rw [buildFold_dget, if_pos ⟨hmem, hm⟩]
  · intro husable env henv
    unfold svcVal
    exact fileFold_present _ _ _ _ henv husable

/-- Witness for C1: the spec's own end-to-end example — one usable external
fragment for `orders` — produces an entry for `orders` whose dict contains the
`lab` environment. -/
theorem c1_report_entries_witness :
    dget (buildResults cfgOrders ["orders"]).results "orders" =
      some (svcVal cfgOrders "orders") ∧
    (dget (svcVal cfgOrders "orders") "lab").isSome = true := by
  have h := c1_report_entries cfgOrders ["orders"] "orders" (by decide)
  refine ⟨h.2.1 (by decide), h.2.2 ?_ "lab" (by decide)⟩
  exact ⟨⟨"orders-extern.conf",
    "location /orders/api \x7b\nlocation /orders/admin \x7b"⟩,
    by decide, by decide, by decide⟩

/-- C2: the name `output` read at line 136 is bound in none of the scopes of
`status.py`, so every invocation that reaches the probing phase ends in a
`NameError` before any HTTP probe is performed (the outcome is independent of
the stubbed HTTP layer) and no report is printed; the freshly built target
dictionary was discarded by `results = {}` at line 134, so the outcome is also
independent of the configuration content. -/
theorem c2_probe_phase_name_error (fs fs' : List ConfigFile)
    (services : List String) (respFn respFn' : String → HttpResult) (w : World)
    (htargets : 1 ≤ totalUrlCount (buildResults fs services)) :
    outputIsBound = false ∧
    (runStatus true fs services respFn w).1 = Except.error (.nameError "output") ∧
    runStatus true fs services respFn w = runStatus true fs services respFn' w ∧
    (runStatus true fs services respFn w).1 =
      (runStatus true fs' services respFn w).1 := by
  exact ⟨rfl, rfl, rfl, rfl⟩

/-- Witness for C2: the `orders` configuration yields 24 probe targets, and
the run still ends in the `NameError`. -/
theorem c2_probe_phase_name_error_witness :
    outputIsBound = false ∧
    (runStatus true cfgOrders ["orders"] respOk ⟨none⟩).1 =
      Except.error (.nameError "output") := by
  have h := c2_probe_phase_name_error cfgOrders cfgDup ["orders"] respOk respMix
    ⟨none⟩ (by decide)
  exact ⟨h.1, h.2.1⟩

/-- C3: probe classification, as recorded by lines 145-154 and read back by
the report of lines 176-189, is a pure function of (transport outcome, status
code, body) that agrees with the spec's priority list: connection failure →
connection_error; [500,599] → server_error; 404 → not_found; 200 with a
keyword line → content_failure with the first matching line as detail; 200
otherwise → ok; anything else → a generic failure carrying the code.  In
particular a 200 whose body is the line `batch job FAILED at step 3`
classifies as a content failure carrying exactly that line. -/
theorem c3_classification_matches_spec :
    (∀ r : HttpResult, toSpec (classifyInfo (recordInfo r)) = some (specClassify r)) ∧
    classifyInfo (recordInfo (.success 200 "batch job FAILED at step 3")) =
      .contentFailure "batch job FAILED at step 3" := by
  constructor
  · intro r
    cases r with
    | failure msg =>
      simp [classifyInfo, recordInfo, specClassify, toSpec, pyTruthy, is5xx]
    | success code body =>
      by_cases h200 : code = 200
      · subst h200
        cases hfe : find_error_line body with
        | none =>
          simp [classifyInfo, recordInfo, specClassify, toSpec, pyTruthy, is5xx, hfe]
        | some l =>
          have hne : l.isEmpty = false := ne_empty_isEmpty_false (find_error_line_ne hfe)
          simp [classifyInfo, recordInfo, specClassify, toSpec, pyTruthy, is5xx,
            hfe, hne]
      · by_cases h5 : 500 ≤ code ∧ code ≤ 599
        · simp [classifyInfo, recordInfo, specClassify, toSpec, pyTruthy, is5xx,
            h200, h5, h5.1, h5.2]
        · by_cases h404 : code = 404
          · subst h404
            simp [classifyInfo, recordInfo, specClassify, toSpec, pyTruthy, is5xx,
              h200, h5]
          · rcases not_and_or.mp h5 with h5a | h5b
            · simp [classifyInfo, recordInfo, specClassify, toSpec, pyTruthy,
                is5xx, h200, h404, h5a, h5]
            · simp [classifyInfo, recordInfo, specClassify, toSpec, pyTruthy,
                is5xx, h200, h404, h5b, h5]
  · decide

/-- The URL sequence of one environment has one URL per (location, suffix)
pair. -/
theorem envUrls_length (env : String) (b : Bool) (locs sfxs : List String) :
    (envUrls env b locs sfxs).length = locs.length * sfxs.length := by
  unfold envUrls
  induction locs with
  | nil => simp
  | cons loc t ih => simp [ih, Nat.succ_mul, Nat.add_comm]

/-- C4 (counterexample): the claim's non-prod host rule and no-deduplication
guarantee both fail on the code.  The internal and external `lab` hosts are
the same constant (the visibility flag is ignored off prod), and two fragments
of service `x` declaring the same location store 3 URLs under (x, lab), not
the claimed 2 × 3 = 6 — the per-(service, environment) dict is keyed by URL,
so the repeated URL is stored once. -/
theorem c4_visibility_and_dedup_counterexample :
    hostFor "lab" true = hostFor "lab" false ∧
    urlCount (buildResults cfgDup ["x"]) "x" "lab" = 3 := by
  exact ⟨rfl, by decide⟩

/-- C4 (amended): per fragment the nested loops construct exactly
4 × locations × suffixes URL insertions (`allUrls`), each URL being
host ++ location ++ suffix; the prod host is one of two distinct constants
selected by visibility, while every non-prod host is
`https://{env}01.onvio.com.br` for both visibilities; and insertions are
stored in a dict keyed by URL — an existing key is overwritten in place, so a
duplicate URL adds no entry. -/
theorem c4_url_construction :
    (∀ env : String, env ≠ "prod" → ∀ b : Bool,
      hostFor env b = "https://" ++ env ++ "01.onvio.com.br") ∧
    hostFor "prod" true = "https://onvio.com.br" ∧
    hostFor "prod" false = "https://int.onvio.com.br" ∧
    (∀ env b loc sfx, urlFor env b loc sfx = hostFor env b ++ loc ++ sfx) ∧
    (∀ b locs sfxs, (allUrls b locs sfxs).length =
      4 * (locs.length * sfxs.length)) ∧
    (∀ (d : EnvDict) u i, dget (dset d u i) u = some i ∧
      (dset d u i).length = if (dget d u).isSome then d.length
        else d.length + 1) := by
  refine ⟨?_, rfl, rfl, fun _ _ _ _ => rfl, ?_, ?_⟩
  · intro env h b
    simp [hostFor, h]
  · intro b locs sfxs
    simp only [allUrls, ENVIRONMENTS, List.flatMap_cons, List.flatMap_nil,
      List.length_append, List.length_nil, envUrls_length]
    ring
  · intro d u i
    exact ⟨dget_dset_self _ _ _, length_dset _ _ _⟩

/-- Witness for C4: the lab host for an external fragment, and the 24-URL
count of the spec's 2-location × 3-suffix example. -/
theorem c4_url_construction_witness :
    hostFor "lab" true = "https://lab01.onvio.com.br" ∧
    (allUrls true ["/orders/api", "/orders/admin"] DEFAULT_SUFFIXES).length = 24 := by
  have h := c4_url_construction
  refine ⟨h.1 "lab" (by decide) true, ?_⟩
  rw [h.2.2.2.2.1 true ["/orders/api", "/orders/admin"] DEFAULT_SUFFIXES]
  decide

/-- C5: suffix-set selection (lines 78-82) is the pure function of the service
name the spec describes: names whose lower-casing starts with the reserved
prefix `bremployeeportal` get exactly `{"healthcheck"}`, all others get
exactly the three default suffixes. -/
theorem c5_suffix_selection :
    (∀ svc : String, startsS (lowerS svc) "bremployeeportal" = true →
      selectSuffixes svc = ["healthcheck"]) ∧
    (∀ svc : String, startsS (lowerS svc) "bremployeeportal" = false →
      selectSuffixes svc =
        ["v1/statuscheck", "v1/resourcecheck", "v1/resourceinspect"]) ∧
    selectSuffixes "bremployeeportal-x" = ["healthcheck"] ∧
    selectSuffixes "checkout" = DEFAULT_SUFFIXES := by
  refine ⟨?_, ?_, by decide, by decide⟩
  · intro svc h
    simp [selectSuffixes, h, BREMPL_SUFFIXES]
  · intro svc h
    simp [selectSuffixes, h, DEFAULT_SUFFIXES]

/-- Witness for C5: the spec's two examples. -/
theorem c5_suffix_selection_witness :
    selectSuffixes "bremployeeportal-x" = ["healthcheck"] ∧
    selectSuffixes "checkout" =
      ["v1/statuscheck", "v1/resourcecheck", "v1/resourceinspect"] := by
  have h := c5_suffix_selection
  exact ⟨h.1 "bremployeeportal-x" (by decide), h.2.1 "checkout" (by decide)⟩

/-- C6: a matching fragment whose name decides no visibility (neither
`extern` nor `intern` occurs, case-insensitively) is skipped with a warning
and contributes nothing to the results — and likewise one whose content
declares no `/`-starting location.  Both are warnings, not errors: the file
loop is total and continues. -/
theorem c6_fragment_skips (sfxs : List String) (d : SvcDict) (w : List String)
    (f : ConfigFile) :
    (fragVisibility f.name = none →
      processFile sfxs (d, w) f = (d, w ++ [noVisMsg f.name])) ∧
    (∀ b, fragVisibility f.name = some b → apiLocations f.content = [] →
      processFile sfxs (d, w) f = (d, w ++ [noLocMsg f.name])) := by
  constructor
  · intro h
    simp [processFile, fileResults, fileWarnings, h]
  · intro b hb hloc
    simp [processFile, fileResults, fileWarnings, hb, hloc]

/-- Witness for C6: the spec's example — fragment `svcA.conf` with content
`location /api { }` — is skipped (its name decides no visibility) and yields
zero targets, leaving only the warning. -/
theorem c6_fragment_skips_witness :
    processFile DEFAULT_SUFFIXES ([], []) ⟨"svcA.conf", "location /api \x7b \x7d"⟩ =
      ([], [noVisMsg "svcA.conf"]) := by
  exact (c6_fragment_skips DEFAULT_SUFFIXES [] []
    ⟨"svcA.conf", "location /api \x7b \x7d"⟩).1 (by decide)

/-- C7: a probe failure never aborts the probing loop.  Fed any dict of
(service, URL list) groups (dict keys are pairwise distinct), the loop
records, for every URL of every group, the record of that URL's own response —
in particular a transport failure is recorded as the `CONNECTION ERROR (...)`
status — and all remaining targets are still processed and recorded. -/
theorem c7_probe_failures_recorded (out : List (String × List String))
    (sfxMap : String → List String) (respFn : String → HttpResult)
    (svc u : String) (urls : List String)
    (hkeys : out.Pairwise (fun a b => a.1 ≠ b.1)) (hmem : (svc, urls) ∈ out)
    (hu : u ∈ urls) :
    dget3 (probePhase out sfxMap respFn) svc (detectEnv u) u =
      some (recordInfo (respFn u)) ∧
    (∀ e, respFn u = .failure e →
      dget3 (probePhase out sfxMap respFn) svc (detectEnv u) u =
        some ⟨some (.str ("CONNECTION ERROR (" ++ e ++ ")")), none⟩) := by
  have hrec : dget3 (probePhase out sfxMap respFn) svc (detectEnv u) u =
      some (recordInfo (respFn u)) :=
    probeFold_records sfxMap respFn out [] svc urls u hkeys hmem hu
  refine ⟨hrec, fun e he => ?_⟩
  rw [hrec, he]
  rfl

/-- Witness for C7: one URL whose probe suffers a transport failure is
recorded with the connection-error status, while a second target of the same
run is still probed and recorded as a clean 200. -/
theorem c7_probe_failures_recorded_witness :
    dget3 (probePhase [("x", ["https://a", "https://b"])]
        (fun _ => DEFAULT_SUFFIXES) respMix) "x" (detectEnv "https://a")
      "https://a" = some ⟨some (.str "CONNECTION ERROR (timeout)"), none⟩ ∧
    dget3 (probePhase [("x", ["https://a", "https://b"])]
        (fun _ => DEFAULT_SUFFIXES) respMix) "x" (detectEnv "https://b")
      "https://b" = some ⟨some (.int 200), none⟩ := by
  constructor
  · exact (c7_probe_failures_recorded [("x", ["https://a", "https://b"])]
      (fun _ => DEFAULT_SUFFIXES) respMix "x" "https://a"
      ["https://a", "https://b"] (by simp) (by simp) (by simp)).2 "timeout" rfl
  · exact ((c7_probe_failures_recorded [("x", ["https://a", "https://b"])]
      (fun _ => DEFAULT_SUFFIXES) respMix "x" "https://b"
      ["https://a", "https://b"] (by simp) (by simp) (by simp)).1).trans (by decide)

/-- C8 (counterexample): no run produces a Report at all — with a valid
checkout, the spec's `orders` configuration and an always-200 stubbed probe
layer, the command's outcome is the probing-phase `NameError`, never
`Except.ok`. -/
theorem c8_no_report_produced :
    ¬ ∃ rep, (runStatus true cfgOrders ["orders"] respOk ⟨none⟩).1 =
      Except.ok rep := by
  rintro ⟨rep, h⟩
  rw [show (runStatus true cfgOrders ["orders"] respOk ⟨none⟩).1 =
    Except.error (.nameError "output") from rfl] at h
  cases h

/-- C8 (amended): the command carries no state between runs: from any two
starting world states — in particular from the state a first run leaves
behind — an unchanged remote configuration and unchanged stubbed probes give
identical outcomes and identical final states; with the current code both
outcomes are the same probing-phase `NameError`, not a Report. -/
theorem c8_runs_identical (gitOk : Bool) (remote : List ConfigFile)
    (services : List String) (respFn : String → HttpResult) (w : World) :
    (runStatus gitOk remote services respFn w).1 =
      (runStatus gitOk remote services respFn
        (runStatus gitOk remote services respFn w).2).1 ∧
    (runStatus gitOk remote services respFn w).2 =
      (runStatus gitOk remote services respFn
        (runStatus gitOk remote services respFn w).2).2 := by
  cases gitOk <;> exact ⟨rfl, rfl⟩

/-- C9: the environment a probe result is recorded under is re-derived from
the URL — the first of `lab, qa, sat, prod` occurring in the lower-cased URL,
defaulting to `prod` (`detectEnv`) — and this disagrees with the environment
the URL was built for: the prod URL of a fragment whose path contains `lab`
is stored under `prod` by the build phase but recorded under `lab` (and not
under `prod`) by the probing loop. -/
theorem c9_env_rederived_from_url :
    (∀ (sfxs : List String) (svc : String) (respFn : String → HttpResult)
        (R : Results) (url : String),
      dget3 (urlStep sfxs svc respFn R url) svc (detectEnv url) url =
        some (recordInfo (respFn url))) ∧
    dget3 (buildResults cfgLab ["x"]).results "x" "prod" labUrl =
      some blankInfo ∧
    detectEnv labUrl = "lab" ∧
    dget3 (probePhase [("x", [labUrl])] (fun _ => DEFAULT_SUFFIXES) respOk)
      "x" "lab" labUrl = some ⟨some (.int 200), none⟩ ∧
    dget3 (probePhase [("x", [labUrl])] (fun _ => DEFAULT_SUFFIXES) respOk)
      "x" "prod" labUrl = none := by
  refine ⟨fun sfxs svc respFn R url => urlStep_records _ _ _ _ _,
    by decide, by decide, by decide, by decide⟩

/-- C10: on every execution path — checkout failure, the probing-phase
`NameError`, or (hypothetically) normal completion — the `finally` block runs
`cleanup_repo`, so the local repository checkout is gone when the command
returns. -/
theorem c10_checkout_always_removed (gitOk : Bool) (remote : List ConfigFile)
    (services : List String) (respFn : String → HttpResult) (w : World) :
    (runStatus gitOk remote services respFn w).2.checkout = none := by
  cases gitOk <;> rfl
